import Mathlib

/-!
Verification development for the training orchestration core of
`src/CE/CE_train.py` (adversarial seq2seq training: generator,
discriminator and NLI classifier trained over sharded, lazily loaded
datasets).  Python functions are shallowly embedded as Lean functions;
Python truthiness of strings (`opt.train_from`) is `≠ ""`, of lists
(`opt.gpuid`) is non-emptiness, exceptions are `Except`, and the
lazy generator `load_dataset` is split into its call (which runs no
body code) and its first-iteration step.
-/

namespace CE

/-! ### Checkpoints and optimizer construction (`build_optim`, lines 310-330) -/

/-- A checkpoint record as loaded by `torch.load(opt.train_from)` in `main`:
the completed epoch number, and the three saved optimizer states keyed by
the names `g_optim` / `d_optim` / `nli_optim` used by `build_optim`
(each abstracted to its step counter). -/
structure Checkpoint where
  epoch : Nat
  savedOptims : List (String × Nat)
deriving DecidableEq

/-- The result of `build_optim`: either an optimizer restored from the
checkpoint (keeping the saved step counter) or a freshly constructed
`onmt.Optim` for the given method and learning rate. -/
inductive BuiltOptim where
  | restored (savedStep : Nat)
  | fresh (method : String) (learningRate : Nat)
deriving DecidableEq

/-- Shallow embedding of `build_optim` (`CE_train.py` lines 310-330).  The
guard mirrors the source line `if opt.train_from and checkpoint and False:`
literally: Python truthiness of the string `opt.train_from` is `≠ ""`,
truthiness of `checkpoint` is `Option.isSome`, and the trailing literal
`and False` of the source is kept as `∧ False`. -/
def build_optim (train_from : String) (checkpoint : Option Checkpoint)
    (optimKey : String) (optimMethod : String) (learningRate : Nat) : BuiltOptim :=
  if train_from ≠ "" ∧ checkpoint.isSome ∧ False then
    .restored (((checkpoint.getD ⟨0, []⟩).savedOptims.lookup optimKey).getD 0)
  else
    .fresh optimMethod learningRate

/-! ### Start epoch on resume (`main`, lines 366-379) and the epoch loop
(`train_model`, line 235) -/

/-- The starting epoch chosen by `main`: when `opt.train_from` is set the
loaded checkpoint overrides it with `checkpoint['epoch'] + 1`, otherwise the
CLI value `opt.start_epoch` is used. -/
def mainStartEpoch (train_from : String) (checkpoint : Checkpoint)
    (cliStartEpoch : Nat) : Nat :=
  if train_from ≠ "" then checkpoint.epoch + 1 else cliStartEpoch

/-- The epoch numbers iterated by `train_model`:
`range(opt.start_epoch, opt.epochs + 1)`. -/
def trainModelEpochs (start_epoch epochs : Nat) : List Nat :=
  List.range' start_epoch (epochs + 1 - start_epoch)

/-! ### Iterator construction (`make_dataset_iter`, lines 184-200) -/

/-- One example record of a dataset shard: a source token sequence and a
target token sequence (tokens abstracted to `Nat`). -/
structure ExampleRec where
  src : List Nat
  tgt : List Nat
deriving DecidableEq

/-- The dynamic token-budget cost function defined inside `make_dataset_iter`:
`def batch_size_fn(new, count, sofar): return sofar + max(len(new.tgt), len(new.src)) + 1`. -/
def tokensBatchSizeFn (new : ExampleRec) (count sofar : Nat) : Nat :=
  sofar + max new.tgt.length new.src.length + 1

/-- The options consumed by `make_dataset_iter`. -/
structure IterOpts where
  batch_size : Nat
  valid_batch_size : Nat
  batch_type : String
  gpuid : List Int

/-- The configuration `make_dataset_iter` hands to `DatasetIter` (and hence
to each per-shard `onmt.io.OrderedIterator`). -/
structure IterConfig where
  batch_size : Nat
  batch_size_fn : Option (ExampleRec → Nat → Nat → Nat)
  device : Int
  is_train : Bool

/-- Shallow embedding of `make_dataset_iter` (`CE_train.py` lines 184-200):
`batch_size` is `opt.batch_size` for training and `opt.valid_batch_size`
otherwise; `batch_size_fn` is set only when `is_train` holds and
`opt.batch_type == "tokens"`; `device` is `opt.gpuid[0]` when `opt.gpuid`
is truthy, else `-1`. -/
def make_dataset_iter (o : IterOpts) (is_train : Bool) : IterConfig :=
  { batch_size := if is_train then o.batch_size else o.valid_batch_size
    batch_size_fn :=
      if is_train ∧ o.batch_type = "tokens" then some tokensBatchSizeFn else none
    device := match o.gpuid with
      | [] => -1
      | g :: _ => g
    is_train := is_train }

/-! ### Token-budget batching (spec §4.2 policy (b), cost from `make_dataset_iter`) -/

/-- The cost the token-budget policy charges for one example:
`max(len(tgt), len(src)) + 1` (the increment `tokensBatchSizeFn` adds to the
running total). -/
def exampleCost (e : ExampleRec) : Nat :=
  max e.tgt.length e.src.length + 1

/-- Total cost of a batch: the sum of its examples' costs. -/
def batchCost (b : List ExampleRec) : Nat :=
  (b.map exampleCost).sum

/-- Modelled from the spec: the dynamic accumulation of the per-shard Ordered
Batch Iterator (`onmt.io.OrderedIterator`, which is not under `src/`) when a
`batch_size_fn` is supplied — "a batch grows while a caller-supplied cost
function ... stays under a token budget"; an example that no longer fits
closes the current batch, and a single example whose cost alone exceeds the
budget forms its own batch.  `fn` receives the candidate example, the would-be
example count and the running total, exactly as `batch_size_fn(new, count,
sofar)` does. -/
def accumulateBatches (budget : Nat) (fn : ExampleRec → Nat → Nat → Nat) :
    List ExampleRec → List ExampleRec → Nat → List (List ExampleRec)
  | [], minibatch, _ => if minibatch.isEmpty then [] else [minibatch]
  | ex :: rest, minibatch, sofar =>
    let s := fn ex (minibatch.length + 1) sofar
    if s ≤ budget then
      accumulateBatches budget fn rest (minibatch ++ [ex]) s
    else if minibatch.isEmpty then
      [ex] :: accumulateBatches budget fn rest [] 0
    else
      minibatch :: accumulateBatches budget fn rest [ex] (fn ex 1 0)

/-- The batch stream of one shard under the token-budget policy with budget
`budget`, using the `batch_size_fn` installed by `make_dataset_iter` for
`batch_type = "tokens"`. -/
def tokenBatches (budget : Nat) (examples : List ExampleRec) :
    List (List ExampleRec) :=
  accumulateBatches budget tokensBatchSizeFn examples [] 0

/-! ### Multi-shard iteration (`DatasetIter`, lines 94-152) -/

/-- Modelled from the spec: the fixed example-count policy of the per-shard
Ordered Batch Iterator (`onmt.io.OrderedIterator`, not under `src/`) — a
shard's examples are split into consecutive batches of at most `n` examples
("fixed maximum example count"). -/
def chunkExamples {α : Type} : Nat → List α → List (List α)
  | _, [] => []
  | 0, l => [l]
  | n + 1, x :: xs => (x :: xs).take (n + 1) :: chunkExamples (n + 1) ((x :: xs).drop (n + 1))
termination_by _ l => l.length
decreasing_by
  simp
  omega

/-- The batch stream produced by `DatasetIter.__iter__` once `__init__` has
already advanced the lazy dataset sequence to the first dataset: `cur` is the
batch list of the current dataset's batch iterator, the list argument the
datasets not yet loaded.  The loop yields every batch of `cur`, then asks
`_next_dataset_iterator` for the next dataset's iterator, stopping when the
sequence is exhausted. -/
def datasetIterFrom {α : Type} (oi : List α → List (List α))
    (cur : List (List α)) : List (List α) → List (List α)
  | [] => cur
  | d :: rest => cur ++ datasetIterFrom oi (oi d) rest

/-- `DatasetIter` construction plus a full iteration pass: `__init__` pulls
the first dataset from the lazy sequence (its `assert self.cur_iter is not
None` fails on an empty sequence, modelled as `none`), builds its batch
iterator `oi`, and `__iter__` then produces the stream `datasetIterFrom`. -/
def datasetIterRun {α : Type} (oi : List α → List (List α)) :
    List (List α) → Option (List (List α))
  | [] => none
  | d :: rest => some (datasetIterFrom oi (oi d) rest)

/-! ### Shard file discovery (`load_dataset`, lines 155-181) -/

/-- Python's `<` on strings, at the level of character lists: lexicographic
comparison by code point. -/
def strLtList : List Char → List Char → Bool
  | _, [] => false
  | [], _ :: _ => true
  | a :: as, b :: bs =>
    if a.toNat < b.toNat then true
    else if b.toNat < a.toNat then false
    else strLtList as bs

/-- Python's `<` on strings. -/
def pyStrLt (a b : String) : Bool := strLtList a.data b.data

/-- Python's `<=` on strings (total order: `a <= b` iff not `b < a`). -/
def pyStrLe (a b : String) : Bool := !pyStrLt b a

/-- Python's `sorted` on a list of strings: ascending by the string order. -/
def pySorted (l : List String) : List String :=
  List.insertionSort (fun a b => pyStrLe a b = true) l

/-- The name of the numbered shard file for index `i`:
`opt.data + '.' + corpus_type + '.' + i + '.pt'` (the files matched by the
glob pattern `opt.data + '.' + corpus_type + '.[0-9]*.pt'`). -/
def shardFileName (dataPath corpus : String) (i : Nat) : String :=
  dataPath ++ "." ++ corpus ++ "." ++ toString i ++ ".pt"

/-- The name of the unnumbered singleton file:
`opt.data + '.' + corpus_type + '.pt'`. -/
def singleFileName (dataPath corpus : String) : String :=
  dataPath ++ "." ++ corpus ++ ".pt"

/-- The file names `load_dataset` consumes, in the order it consumes them:
`pts = sorted(glob.glob(opt.data + '.' + corpus_type + '.[0-9]*.pt'))`, and
if `pts` is empty, the single unnumbered file.  `shardIdxs` are the indices
of the numbered shard files present on disk (in arbitrary glob order). -/
def load_dataset_files (dataPath corpus : String) (shardIdxs : List Nat) : List String :=
  let pts := pySorted (shardIdxs.map (shardFileName dataPath corpus))
  if pts.isEmpty then [singleFileName dataPath corpus] else pts

/-! ### Lazy loading and missing data (`load_dataset`, `dataset_loader`) -/

/-- The on-disk state for one corpus role: which numbered shard indices
exist, and whether the unnumbered singleton file exists. -/
structure CorpusFiles where
  shards : List Nat
  singletonPresent : Bool

/-- The failure raised when a requested dataset file is absent: the spec's
`MissingDataError` (in the source the `torch.load` call inside
`dataset_loader` raises on a missing path). -/
inductive DataError where
  | missingData (path : String)
deriving DecidableEq

/-- All files present on disk for a role. -/
def existingFiles (dataPath corpus : String) (fs : CorpusFiles) : List String :=
  fs.shards.map (shardFileName dataPath corpus)
    ++ (if fs.singletonPresent then [singleFileName dataPath corpus] else [])

/-- The `load(path)` capability used by `dataset_loader` (`torch.load`):
returns the dataset stored at `path`, failing when the file is absent. -/
def torch_load (existing : List String) (path : String) : Except DataError String :=
  if existing.contains path then .ok path else .error (.missingData path)

/-- The generator object returned by calling `load_dataset(corpus_type)`:
since `load_dataset` is a Python generator function, the call itself runs
none of the body (no glob, no file read) and cannot fail. -/
structure LazyDatasetSeq where
  corpus : String

/-- Calling `load_dataset(corpus_type)`: always succeeds, touching no files. -/
def load_dataset_call (corpus : String) : Except DataError LazyDatasetSeq :=
  .ok ⟨corpus⟩

/-- The first `next()` on the generator: only now the body runs — the glob,
the numbered-versus-singleton choice, and the first `dataset_loader`
(`torch.load`) call. -/
def load_dataset_first (dataPath : String) (fs : CorpusFiles)
    (g : LazyDatasetSeq) : Except DataError String :=
  let pts := pySorted (fs.shards.map (shardFileName dataPath g.corpus))
  match pts with
  | pt :: _ => torch_load (existingFiles dataPath g.corpus fs) pt
  | [] => torch_load (existingFiles dataPath g.corpus fs) (singleFileName dataPath g.corpus)

/-! ### Field loading (`load_fields`, lines 265-285) -/

/-- A field descriptor: its vocabulary (abstract content type `V`) plus the
rest of its processing state, which `load_fields` leaves untouched. -/
structure FieldDescr (V : Type) where
  vocab : V
  info : String
deriving DecidableEq

/-- Shallow embedding of `load_fields` (`CE_train.py` lines 265-285):
the field dict loaded from `opt.data + '.vocab.pt'` is filtered down to the
keys appearing in the first example's `__dict__`, and then the NLI label
binding `fields['per'].vocab = fields['tgt'].vocab` is applied (reading
`fields['tgt']` first, then assigning on `fields['per']`; a `KeyError` on
either missing key is modelled by `none`). -/
def load_fields {V : Type} (base : String → Option (FieldDescr V))
    (exampleKeys : List String) : Option (String → Option (FieldDescr V)) :=
  let fields : String → Option (FieldDescr V) := fun k =>
    if exampleKeys.contains k then base k else none
  match fields "tgt", fields "per" with
  | some tgtF, some perF =>
      some (fun k => if k = "per" then some { perF with vocab := tgtF.vocab }
            else fields k)
  | _, _ => none

/-- A concrete field dict for the C4 witness (vocabularies as `Nat` ids). -/
def baseFieldsW : String → Option (FieldDescr Nat) := fun k =>
  if k = "src" then some ⟨10, "srcf"⟩
  else if k = "tgt" then some ⟨20, "tgtf"⟩
  else if k = "per" then some ⟨30, "perf"⟩
  else none

/-- The field dict `load_fields baseFieldsW ["src", "tgt", "per"]` returns:
`per`'s vocabulary has been replaced by `tgt`'s. -/
def loadFieldsResultW : String → Option (FieldDescr Nat) := fun k =>
  if k = "per" then some ⟨20, "perf"⟩
  else if (["src", "tgt", "per"] : List String).contains k then baseFieldsW k
  else none

/-! ### Module-level configuration checks (lines 40-53) and `main` -/

/-- The options the module-level startup checks consult. -/
structure StartupOpts where
  rnn_type : String
  gpuid : List Int

/-- Observable startup events, in program order: the SRU/accelerator check
(line 40: `raise AssertionError` when `opt.rnn_type == "SRU"` and
`opt.gpuid` is falsy), the multi-accelerator check (lines 51-53:
`sys.exit(1)` when `len(opt.gpuid) > 1`), and the first dataset file read,
which `main` performs only after the module body has run. -/
inductive StartupEvent where
  | sruCheckPassed
  | sruAssertionError
  | multiGpuCheckPassed
  | multiGpuExit
  | datasetRead (path : String)
deriving DecidableEq

/-- The event trace of process startup: module-level checks in source order,
then (only if none aborted) `main`'s first dataset read at `firstDataPath`. -/
def startupTrace (o : StartupOpts) (firstDataPath : String) : List StartupEvent :=
  if o.rnn_type = "SRU" ∧ o.gpuid = [] then [.sruAssertionError]
  else if 1 < o.gpuid.length then [.sruCheckPassed, .multiGpuExit]
  else [.sruCheckPassed, .multiGpuCheckPassed, .datasetRead firstDataPath]

/-! ### The epoch loop of `train_model` (lines 235-262) -/

/-- The observable phases of one epoch of `train_model`, in source order. -/
inductive TrainPhase where
  | trainEpoch (epoch : Nat)
  | validateEpoch (epoch : Nat)
  | logRemote (epoch : Nat)
  | rateUpdate (validPpl : Nat) (epoch : Nat)
  | writeCheckpoint (epoch : Nat) (validPpl : Nat)
deriving DecidableEq

/-- One iteration of the `train_model` epoch loop (steps 1-5 of the source):
train, validate, optionally log to the remote server (only when
`opt.exp_host` is set), call `trainer.epoch_step(valid_stats.ppl(), epoch)`,
and call `trainer.drop_checkpoint` (with the same validation stats) iff
`epoch >= opt.start_checkpoint_at`.  `validPpl epoch` is the validation
perplexity measured by step 2 in that epoch. -/
def epochPhases (exp_host : String) (start_checkpoint_at : Nat)
    (validPpl : Nat → Nat) (epoch : Nat) : List TrainPhase :=
  [.trainEpoch epoch, .validateEpoch epoch]
    ++ (if exp_host ≠ "" then [.logRemote epoch] else [])
    ++ [.rateUpdate (validPpl epoch) epoch]
    ++ (if start_checkpoint_at ≤ epoch then
          [.writeCheckpoint epoch (validPpl epoch)] else [])

/-- The full phase trace of `train_model`: the epoch phases for each epoch
in `range(opt.start_epoch, opt.epochs + 1)`, in order. -/
def train_model_trace (start_epoch epochs : Nat) (exp_host : String)
    (start_checkpoint_at : Nat) (validPpl : Nat → Nat) : List TrainPhase :=
  ((trainModelEpochs start_epoch epochs).map
    (epochPhases exp_host start_checkpoint_at validPpl)).flatten

/-- `a` occurs at a strictly earlier position than `b` in `l`. -/
def occursBefore {α : Type} (l : List α) (a b : α) : Prop :=
  ∃ i j : Nat, i < j ∧ l[i]? = some a ∧ l[j]? = some b

/-! ### Theorems -/

/-- C1: `build_optim` never restores an optimizer from the checkpoint.  The
restore branch is guarded by `opt.train_from and checkpoint and False`, which
is always falsy, so even on a resumed run (`train_from ≠ ""`, checkpoint
present) every sub-model optimizer is built fresh and its step counter is not
the saved one: the claim that the three optimizers are restored from the
checkpoint fails on the code. -/
theorem C1_build_optim_always_fresh (train_from : String)
    (checkpoint : Option Checkpoint) (optimKey optimMethod : String)
    (learningRate : Nat) :
    build_optim train_from checkpoint optimKey optimMethod learningRate
      = .fresh optimMethod learningRate := by
  simp [build_optim]

/-- C5: when `opt.train_from` is set and the loaded checkpoint stores epoch
`E`, `main` sets the run's starting epoch to exactly `E + 1`, and (provided
`E + 1 ≤ opt.epochs`, so that the loop body runs) the first epoch iterated by
`train_model` is `E + 1`. -/
theorem C5_resume_first_epoch (train_from : String) (cp : Checkpoint)
    (cliStartEpoch epochs : Nat) (htf : train_from ≠ "")
    (hle : cp.epoch + 1 ≤ epochs) :
    mainStartEpoch train_from cp cliStartEpoch = cp.epoch + 1 ∧
    (trainModelEpochs (mainStartEpoch train_from cp cliStartEpoch) epochs).head?
      = some (cp.epoch + 1) := by
  have hs : mainStartEpoch train_from cp cliStartEpoch = cp.epoch + 1 := by
    simp [mainStartEpoch, htf]
  refine ⟨hs, ?_⟩
  rw [hs]
  have hn : epochs + 1 - (cp.epoch + 1) = (epochs - (cp.epoch + 1)) + 1 := by omega
  simp [trainModelEpochs, hn, List.range']

/-- Witness for C5 at a concrete resumed run: checkpoint epoch 4, 13 epochs. -/
theorem C5_resume_first_epoch_witness :
    mainStartEpoch "model_e4.pt" ⟨4, []⟩ 1 = 5 ∧
    (trainModelEpochs (mainStartEpoch "model_e4.pt" ⟨4, []⟩ 1) 13).head? = some 5 :=
  C5_resume_first_epoch "model_e4.pt" ⟨4, []⟩ 1 13 (by decide) (by decide)

/-- C10: every validation iterator (`is_train = false`) uses the fixed
example-count policy: its batch size limit is `opt.valid_batch_size` and its
`batch_size_fn` is `None`, for every option setting — in particular also when
`opt.batch_type = "tokens"`; the token-budget policy is reserved for training
iterators. -/
theorem C10_valid_iter_fixed_count (o : IterOpts) :
    (make_dataset_iter o false).batch_size_fn = none ∧
    (make_dataset_iter o false).batch_size = o.valid_batch_size := by
  constructor <;> simp [make_dataset_iter]

/-- Appending one example to a batch adds exactly its cost. -/
lemma batchCost_append_single (mb : List ExampleRec) (e : ExampleRec) :
    batchCost (mb ++ [e]) = batchCost mb + exampleCost e := by
  simp [batchCost]

/-- Invariant of the token-budget accumulation: if the pending minibatch's
cost equals the running total and is within budget (or the minibatch is a
single oversized example), then every emitted batch is within budget or a
single oversized example. -/
lemma accumulateBatches_cost_sound (budget : Nat) :
    ∀ (exs minibatch : List ExampleRec) (sofar : Nat),
      batchCost minibatch = sofar →
      (sofar ≤ budget ∨ ∃ e, minibatch = [e] ∧ budget < exampleCost e) →
      ∀ b ∈ accumulateBatches budget tokensBatchSizeFn exs minibatch sofar,
        batchCost b ≤ budget ∨ ∃ e, b = [e] ∧ budget < exampleCost e := by
  intro exs
  induction exs with
  | nil =>
    intro mb sofar hmb hok b hb
    by_cases hmbe : mb.isEmpty
    · simp [accumulateBatches, hmbe] at hb
    · simp [accumulateBatches, hmbe] at hb
      subst hb
      rcases hok with hle | hov
      · exact Or.inl (by omega)
      · exact Or.inr hov
  | cons ex rest ih =>
    intro mb sofar hmb hok b hb
    simp only [accumulateBatches] at hb
    have hfn : tokensBatchSizeFn ex (mb.length + 1) sofar = sofar + exampleCost ex := by
      simp [tokensBatchSizeFn, exampleCost, Nat.add_assoc]
    by_cases h1 : tokensBatchSizeFn ex (mb.length + 1) sofar ≤ budget
    · rw [if_pos h1] at hb
      refine ih (mb ++ [ex]) _ ?_ (Or.inl h1) b hb
      rw [batchCost_append_single, hmb, hfn]
    · rw [if_neg h1] at hb
      rw [hfn] at h1
      by_cases h2 : mb.isEmpty
      · rw [if_pos h2] at hb
        rcases List.mem_cons.mp hb with hbe | hbr
        · refine Or.inr ⟨ex, hbe, ?_⟩
          have hmb0 : sofar = 0 := by
            rw [List.isEmpty_iff] at h2
            subst h2
            simpa [batchCost] using hmb.symm
          omega
        · exact ih [] 0 rfl (Or.inl (Nat.zero_le _)) b hbr
      · rw [if_neg h2] at hb
        rcases List.mem_cons.mp hb with hbe | hbr
        · subst hbe
          rcases hok with hle | hov
          · exact Or.inl (by omega)
          · exact Or.inr hov
        · refine ih [ex] (tokensBatchSizeFn ex 1 0) ?_ ?_ b hbr
          · simp [batchCost, tokensBatchSizeFn, exampleCost]
          · by_cases hc : exampleCost ex ≤ budget
            · refine Or.inl ?_
              simpa [tokensBatchSizeFn, exampleCost] using hc
            · exact Or.inr ⟨ex, rfl, by omega⟩

/-- C6: with `batch_type = "tokens"` the training iterator installs the
token-budget cost function; that function charges exactly
`max(len(tgt), len(src)) + 1` per example on top of the running total; and
every batch emitted by the token-budget accumulation either has total cost at
most the budget or is a single example whose cost alone exceeds the budget. -/
theorem C6_token_budget_policy (o : IterOpts) (ho : o.batch_type = "tokens")
    (budget : Nat) (examples : List ExampleRec) (b : List ExampleRec)
    (hb : b ∈ tokenBatches budget examples) :
    (make_dataset_iter o true).batch_size_fn = some tokensBatchSizeFn ∧
    (∀ new count sofar, tokensBatchSizeFn new count sofar
        = sofar + (max new.tgt.length new.src.length + 1)) ∧
    (batchCost b ≤ budget ∨ ∃ e, b = [e] ∧ budget < exampleCost e) := by
  refine ⟨by simp [make_dataset_iter, ho], ?_, ?_⟩
  · intro new count sofar
    simp [tokensBatchSizeFn, Nat.add_assoc]
  · exact accumulateBatches_cost_sound budget examples [] 0 rfl
      (Or.inl (Nat.zero_le _)) b hb

/-- Witness for C6: budget 5; examples of cost 3, 2 and 7; the stream is
`[[e1, e2], [e3]]` — the batch `[e1, e2]` has cost exactly 5 and the oversized
`e3` is alone. -/
theorem C6_token_budget_policy_witness :
    (IterOpts.mk 64 32 "tokens" []).batch_type = "tokens" ∧
    ([⟨[0], [0, 0]⟩, ⟨[0], [0]⟩] : List ExampleRec)
      ∈ tokenBatches 5 [⟨[0], [0, 0]⟩, ⟨[0], [0]⟩, ⟨[0, 0, 0, 0, 0, 0], [0]⟩] ∧
    ((make_dataset_iter (IterOpts.mk 64 32 "tokens" []) true).batch_size_fn
        = some tokensBatchSizeFn ∧
      (∀ new count sofar, tokensBatchSizeFn new count sofar
          = sofar + (max new.tgt.length new.src.length + 1)) ∧
      (batchCost [⟨[0], [0, 0]⟩, ⟨[0], [0]⟩] ≤ 5 ∨
        ∃ e, ([⟨[0], [0, 0]⟩, ⟨[0], [0]⟩] : List ExampleRec) = [e] ∧ 5 < exampleCost e)) :=
  ⟨rfl, by decide,
    C6_token_budget_policy (IterOpts.mk 64 32 "tokens" []) rfl 5
      [⟨[0], [0, 0]⟩, ⟨[0], [0]⟩, ⟨[0, 0, 0, 0, 0, 0], [0]⟩]
      [⟨[0], [0, 0]⟩, ⟨[0], [0]⟩] (by decide)⟩

/-- Every batch produced by the fixed example-count chunking of a shard is a
sublist of that shard's example list. -/
lemma chunkExamples_sublist {α : Type} :
    ∀ (n : Nat) (l : List α), ∀ b ∈ chunkExamples n l, List.Sublist b l := by
  intro n l
  induction n, l using chunkExamples.induct with
  | case1 n => simp [chunkExamples]
  | case2 l =>
    intro b hb
    simp [chunkExamples] at hb
    subst hb
    exact List.Sublist.refl _
  | case3 n x xs ih =>
    intro b hb
    rw [chunkExamples] at hb
    rcases List.mem_cons.mp hb with h | h
    · subst h
      exact List.take_sublist _ _
    · exact (ih b h).trans (List.drop_sublist _ _)

/-- A full `DatasetIter` pass starting from batch list `cur` yields `cur`
followed by each remaining dataset's batch list, in dataset order. -/
lemma datasetIterFrom_eq_flatten {α : Type} (oi : List α → List (List α)) :
    ∀ (ds : List (List α)) (cur : List (List α)),
      datasetIterFrom oi cur ds = cur ++ (ds.map oi).flatten := by
  intro ds
  induction ds with
  | nil =>
    intro cur
    simp [datasetIterFrom]
  | cons d rest ih =>
    intro cur
    simp [datasetIterFrom, ih]

/-- C3: for a non-empty lazy sequence of datasets, `DatasetIter` yields the
concatenation, in dataset order, of each dataset's own batch list — so every
batch of dataset `k` is yielded before any batch of dataset `k + 1`, and a
dataset's batch iterator is entered only once the previous one is exhausted —
and every yielded batch is a sublist of a single dataset's examples (no batch
mixes two datasets). -/
theorem C3_dataset_iter_order {α : Type} (bs : Nat) (ds : List (List α))
    (hne : ds ≠ []) :
    datasetIterRun (chunkExamples bs) ds
        = some ((ds.map (chunkExamples bs)).flatten) ∧
    ∀ b ∈ (ds.map (chunkExamples bs)).flatten, ∃ d ∈ ds, List.Sublist b d := by
  constructor
  · match ds, hne with
    | d :: rest, _ =>
      simp [datasetIterRun, datasetIterFrom_eq_flatten]
  · intro b hb
    rw [List.mem_flatten] at hb
    obtain ⟨bl, hbl, hbbl⟩ := hb
    rw [List.mem_map] at hbl
    obtain ⟨d, hd, rfl⟩ := hbl
    exact ⟨d, hd, chunkExamples_sublist bs d b hbbl⟩

/-- Witness for C3: two shards of 10 examples each, batch size 4
(spec §8 property 6: batches 4, 4, 2 from shard 0, then 4, 4, 2 from
shard 1). -/
theorem C3_dataset_iter_order_witness :
    ([[1, 2, 3, 4, 5, 6, 7, 8, 9, 10],
      [11, 12, 13, 14, 15, 16, 17, 18, 19, 20]] : List (List Nat)) ≠ [] ∧
    (datasetIterRun (chunkExamples 4)
        [[1, 2, 3, 4, 5, 6, 7, 8, 9, 10],
          [11, 12, 13, 14, 15, 16, 17, 18, 19, 20]]
        = some ((([[1, 2, 3, 4, 5, 6, 7, 8, 9, 10],
            [11, 12, 13, 14, 15, 16, 17, 18, 19, 20]] : List (List Nat)).map
              (chunkExamples 4)).flatten) ∧
      ∀ b ∈ (([[1, 2, 3, 4, 5, 6, 7, 8, 9, 10],
          [11, 12, 13, 14, 15, 16, 17, 18, 19, 20]] : List (List Nat)).map
            (chunkExamples 4)).flatten,
        ∃ d ∈ ([[1, 2, 3, 4, 5, 6, 7, 8, 9, 10],
            [11, 12, 13, 14, 15, 16, 17, 18, 19, 20]] : List (List Nat)),
          List.Sublist b d) :=
  ⟨by decide,
    C3_dataset_iter_order 4
      [[1, 2, 3, 4, 5, 6, 7, 8, 9, 10],
        [11, 12, 13, 14, 15, 16, 17, 18, 19, 20]] (by decide)⟩

/-- Lexicographic comparison is irreflexive. -/
lemma strLtList_irrefl : ∀ a, strLtList a a = false := by
  intro a
  induction a with
  | nil => rfl
  | cons x xs ih => simp [strLtList, ih]

/-- Lexicographic comparison is asymmetric. -/
lemma strLtList_asymm : ∀ a b, strLtList a b = true → strLtList b a = false := by
  intro a
  induction a with
  | nil =>
    intro b h
    cases b with
    | nil => simp [strLtList] at h
    | cons y ys => rfl
  | cons x xs ih =>
    intro b h
    cases b with
    | nil => simp [strLtList] at h
    | cons y ys =>
      simp only [strLtList] at h ⊢
      by_cases h1 : x.toNat < y.toNat
      · rw [if_neg (by omega), if_pos h1]
      · rw [if_neg h1] at h
        by_cases h2 : y.toNat < x.toNat
        · rw [if_pos h2] at h
          simp at h
        · rw [if_neg h2] at h
          rw [if_neg h2, if_neg h1]
          exact ih ys h

/-- Lexicographic comparison is transitive. -/
lemma strLtList_trans : ∀ a b c, strLtList a b = true → strLtList b c = true →
    strLtList a c = true := by
  intro a
  induction a with
  | nil =>
    intro b c hab hbc
    cases b with
    | nil => simp [strLtList] at hab
    | cons y ys =>
      cases c with
      | nil => simp [strLtList] at hbc
      | cons z zs => rfl
  | cons x xs ih =>
    intro b c hab hbc
    cases b with
    | nil => simp [strLtList] at hab
    | cons y ys =>
      cases c with
      | nil => simp [strLtList] at hbc
      | cons z zs =>
        simp only [strLtList] at hab hbc ⊢
        by_cases h1 : x.toNat < y.toNat
        · by_cases h2 : y.toNat < z.toNat
          · rw [if_pos (by omega)]
          · rw [if_neg h2] at hbc
            by_cases h3 : z.toNat < y.toNat
            · rw [if_pos h3] at hbc
              simp at hbc
            · rw [if_pos (by omega)]
        · rw [if_neg h1] at hab
          by_cases h2 : y.toNat < x.toNat
          · rw [if_pos h2] at hab
            simp at hab
          · rw [if_neg h2] at hab
            by_cases h3 : y.toNat < z.toNat
            · rw [if_pos (by omega)]
            · rw [if_neg h3] at hbc
              by_cases h4 : z.toNat < y.toNat
              · rw [if_pos h4] at hbc
                simp at hbc
              · rw [if_neg h4] at hbc
                rw [if_neg (by omega), if_neg (by omega)]
                exact ih ys zs hab hbc

/-- Characters with equal code points are equal. -/
lemma char_toNat_inj {x y : Char} (h : x.toNat = y.toNat) : x = y :=
  Char.ext (UInt32.ext h)

/-- Two lists neither of which is lexicographically below the other are
equal. -/
lemma strLtList_connex : ∀ a b, strLtList a b = false → strLtList b a = false →
    a = b := by
  intro a
  induction a with
  | nil =>
    intro b hab hba
    cases b with
    | nil => rfl
    | cons y ys => simp [strLtList] at hab
  | cons x xs ih =>
    intro b hab hba
    cases b with
    | nil => simp [strLtList] at hba
    | cons y ys =>
      simp only [strLtList] at hab hba
      by_cases h1 : x.toNat < y.toNat
      · rw [if_pos h1] at hab
        simp at hab
      · by_cases h2 : y.toNat < x.toNat
        · rw [if_pos h2] at hba
          simp at hba
        · rw [if_neg h1, if_neg h2] at hab
          rw [if_neg h2, if_neg h1] at hba
          have hxy : x = y := char_toNat_inj (by omega)
          rw [hxy, ih ys hab hba]

/-- A common left factor cancels in lexicographic comparison. -/
lemma strLtList_append_left : ∀ (p a b : List Char),
    strLtList (p ++ a) (p ++ b) = strLtList a b := by
  intro p
  induction p with
  | nil =>
    intro a b
    rfl
  | cons x xs ih =>
    intro a b
    simp only [List.cons_append, strLtList, Nat.lt_irrefl, if_neg (Nat.lt_irrefl _)]
    simp [ih]

/-- The Python string order is total. -/
lemma pyStrLe_total : ∀ a b : String, pyStrLe a b = true ∨ pyStrLe b a = true := by
  intro a b
  simp only [pyStrLe, pyStrLt, Bool.not_eq_true']
  by_cases h : strLtList b.data a.data = true
  · right
    exact strLtList_asymm _ _ h
  · left
    simpa using h

/-- The Python string order is transitive. -/
lemma pyStrLe_trans : ∀ a b c : String, pyStrLe a b = true → pyStrLe b c = true →
    pyStrLe a c = true := by
  intro a b c hab hbc
  simp only [pyStrLe, pyStrLt, Bool.not_eq_true'] at hab hbc ⊢
  by_contra hca
  rw [Bool.not_eq_false] at hca
  by_cases hbc2 : strLtList b.data c.data = true
  · by_cases hab2 : strLtList a.data b.data = true
    · have hac : strLtList a.data c.data = true := strLtList_trans _ _ _ hab2 hbc2
      have := strLtList_asymm _ _ hac
      rw [this] at hca
      simp at hca
    · have : a.data = b.data := strLtList_connex _ _ (by simpa using hab2) hab
      rw [← this] at hbc
      rw [hca] at hbc
      simp at hbc
  · have : b.data = c.data := strLtList_connex _ _ (by simpa using hbc2) hbc
    rw [this] at hab
    rw [hca] at hab
    simp at hab

/-- Python's `sorted` returns a list sorted in the string order. -/
lemma pySorted_sorted (l : List String) :
    List.Sorted (fun a b => pyStrLe a b = true) (pySorted l) := by
  haveI : IsTotal String (fun a b => pyStrLe a b = true) := ⟨pyStrLe_total⟩
  haveI : IsTrans String (fun a b => pyStrLe a b = true) := ⟨pyStrLe_trans⟩
  exact List.sorted_insertionSort _ l

/-- Python's `sorted` returns a permutation of its input. -/
lemma pySorted_perm (l : List String) : (pySorted l).Perm l :=
  List.perm_insertionSort _ l

/-- `orderedInsert` commutes with an order-compatible map. -/
lemma orderedInsert_map_compat (f : Nat → String) (s : Nat → Nat → Prop)
    [DecidableRel s] :
    ∀ (x : Nat) (l : List Nat),
      (∀ b ∈ l, (pyStrLe (f x) (f b) = true ↔ s x b)) →
      List.orderedInsert (fun a b => pyStrLe a b = true) (f x) (l.map f)
        = (List.orderedInsert s x l).map f := by
  intro x l
  induction l with
  | nil =>
    intro _
    rfl
  | cons y ys ih =>
    intro hc
    simp only [List.map_cons, List.orderedInsert]
    by_cases h : s x y
    · rw [if_pos ((hc y (by simp)).mpr h), if_pos h]
      simp
    · rw [if_neg (fun hr => h ((hc y (by simp)).mp hr)), if_neg h]
      simp only [List.map_cons]
      rw [ih (fun b hb => hc b (by simp [hb]))]

/-- `insertionSort` commutes with an order-compatible map. -/
lemma insertionSort_map_compat (f : Nat → String) (s : Nat → Nat → Prop)
    [DecidableRel s] :
    ∀ l : List Nat,
      (∀ a ∈ l, ∀ b ∈ l, (pyStrLe (f a) (f b) = true ↔ s a b)) →
      List.insertionSort (fun a b => pyStrLe a b = true) (l.map f)
        = (List.insertionSort s l).map f := by
  intro l
  induction l with
  | nil =>
    intro _
    rfl
  | cons x xs ih =>
    intro hc
    simp only [List.map_cons, List.insertionSort]
    rw [ih (fun a ha b hb => hc a (by simp [ha]) b (by simp [hb]))]
    exact orderedInsert_map_compat f s x (List.insertionSort s xs)
      (fun b hb => hc x (by simp) b
        (by simp [(List.perm_insertionSort s xs).subset hb]))

/-- The character list of a shard file name: a common role-dependent part
followed by the decimal index and the `.pt` suffix. -/
lemma shardFileName_data (dataPath corpus : String) (k : Nat) :
    (shardFileName dataPath corpus k).data
      = (dataPath.data ++ '.' :: (corpus.data ++ ['.']))
          ++ ((toString k).data ++ ['.', 'p', 't']) := by
  simp [shardFileName, String.data_append, List.append_assoc]

/-- For single-digit indices, the string order of `index.pt` suffixes agrees
with the numeric order of the indices. -/
lemma digit_suffix_le : ∀ i < 10, ∀ j < 10,
    ((!strLtList ((toString j).data ++ ['.', 'p', 't'])
        ((toString i).data ++ ['.', 'p', 't'])) = true ↔ i ≤ j) := by
  decide

/-- For single-digit indices, the string order of shard file names agrees
with the numeric order of the indices, whatever the data path and corpus
role. -/
lemma shardFileName_le_iff (dataPath corpus : String) (i j : Nat)
    (hi : i < 10) (hj : j < 10) :
    (pyStrLe (shardFileName dataPath corpus i) (shardFileName dataPath corpus j)
        = true ↔ i ≤ j) := by
  rw [show pyStrLe (shardFileName dataPath corpus i) (shardFileName dataPath corpus j)
      = !strLtList ((toString j).data ++ ['.', 'p', 't'])
          ((toString i).data ++ ['.', 'p', 't']) by
    simp only [pyStrLe, pyStrLt, shardFileName_data]
    rw [strLtList_append_left]]
  exact digit_suffix_le i hi j hj

/-- C2 counterexample: with shard indices 2 and 10 present, `load_dataset`
yields `data.train.10.pt` before `data.train.2.pt` (Python's `sorted` on the
file-name strings), which is not the ascending numeric index order the claim
states. -/
theorem C2_numeric_order_counterexample :
    load_dataset_files "data" "train" [2, 10]
        = [shardFileName "data" "train" 10, shardFileName "data" "train" 2] ∧
    shardFileName "data" "train" 10 = "data.train.10.pt" ∧
    shardFileName "data" "train" 2 = "data.train.2.pt" ∧
    load_dataset_files "data" "train" [2, 10]
      ≠ (List.insertionSort (fun i j : Nat => i ≤ j) [2, 10]).map
          (shardFileName "data" "train") := by
  refine ⟨by decide, by decide, by decide, by decide⟩

/-- C2 (amended): when no numbered shard exists the single unnumbered file
is yielded; when numbered shards exist they are yielded in ascending
lexicographic (string) order of their file names — a permutation of the
matching files, sorted by the string order — and this agrees with ascending
numeric index order whenever all indices are single-digit. -/
theorem C2_shard_order_lexicographic (dataPath corpus : String)
    (idxs : List Nat) :
    (idxs = [] →
      load_dataset_files dataPath corpus idxs = [singleFileName dataPath corpus]) ∧
    (idxs ≠ [] →
      (load_dataset_files dataPath corpus idxs).Perm
          (idxs.map (shardFileName dataPath corpus)) ∧
      List.Sorted (fun a b => pyStrLe a b = true)
          (load_dataset_files dataPath corpus idxs)) ∧
    ((∀ i ∈ idxs, i < 10) → idxs ≠ [] →
      load_dataset_files dataPath corpus idxs
        = (List.insertionSort (fun i j : Nat => i ≤ j) idxs).map
            (shardFileName dataPath corpus)) := by
  have hne2 : idxs ≠ [] →
      ¬ (pySorted (idxs.map (shardFileName dataPath corpus))).isEmpty = true := by
    intro hne
    have hlen : (pySorted (idxs.map (shardFileName dataPath corpus))).length
        = idxs.length := by
      rw [(pySorted_perm _).length_eq, List.length_map]
    rw [List.isEmpty_iff_length_eq_zero, hlen]
    simpa [List.length_eq_zero] using hne
  refine ⟨?_, ?_, ?_⟩
  · intro h
    subst h
    rfl
  · intro hne
    simp only [load_dataset_files, if_neg (hne2 hne)]
    exact ⟨pySorted_perm _, pySorted_sorted _⟩
  · intro hd hne
    simp only [load_dataset_files, if_neg (hne2 hne)]
    exact insertionSort_map_compat (shardFileName dataPath corpus) _ idxs
      (fun a ha b hb => shardFileName_le_iff dataPath corpus a b (hd a ha) (hd b hb))

/-- Witness for C2 (amended) at shard indices `[0, 3, 1]` (single-digit, so
lexicographic = numeric) and at an empty shard set (singleton fallback). -/
theorem C2_shard_order_lexicographic_witness :
    (∀ i ∈ ([0, 3, 1] : List Nat), i < 10) ∧
    ([0, 3, 1] : List Nat) ≠ [] ∧
    load_dataset_files "data" "train" [0, 3, 1]
      = (List.insertionSort (fun i j : Nat => i ≤ j) [0, 3, 1]).map
          (shardFileName "data" "train") ∧
    load_dataset_files "data" "valid" [] = [singleFileName "data" "valid"] :=
  ⟨by decide, by decide,
    (C2_shard_order_lexicographic "data" "train" [0, 3, 1]).2.2 (by decide) (by decide),
    (C2_shard_order_lexicographic "data" "valid" []).1 rfl⟩

/-- C7: when neither numbered shard files nor the singleton file exist for a
role, calling `load_dataset` still succeeds (the generator body runs no code
at call time), and the missing-data failure is raised at the first iteration
attempt, naming the singleton path the loader fell back to. -/
theorem C7_missing_data_lazy (dataPath corpus : String) (fs : CorpusFiles)
    (hsh : fs.shards = []) (hsing : fs.singletonPresent = false) :
    load_dataset_call corpus = .ok ⟨corpus⟩ ∧
    load_dataset_first dataPath fs ⟨corpus⟩
      = .error (.missingData (singleFileName dataPath corpus)) := by
  refine ⟨rfl, ?_⟩
  simp [load_dataset_first, existingFiles, torch_load, hsh, hsing, pySorted,
    List.insertionSort]

/-- Witness for C7: empty disk state for the `train` role. -/
theorem C7_missing_data_lazy_witness :
    load_dataset_call "train" = .ok ⟨"train"⟩ ∧
    load_dataset_first "data" ⟨[], false⟩ ⟨"train"⟩
      = .error (.missingData (singleFileName "data" "train")) :=
  C7_missing_data_lazy "data" "train" ⟨[], false⟩ rfl rfl

/-- C4: whenever `load_fields` returns a field dict, the vocabulary of the
NLI label field `per` is the vocabulary of the target field `tgt` — the
binding `fields['per'].vocab = fields['tgt'].vocab` applied at load time,
for every base field dict and every example key set. -/
theorem C4_per_vocab_is_tgt_vocab {V : Type}
    (base : String → Option (FieldDescr V)) (keys : List String)
    (result : String → Option (FieldDescr V))
    (h : load_fields base keys = some result) :
    ∃ perF tgtF, result "per" = some perF ∧ result "tgt" = some tgtF ∧
      perF.vocab = tgtF.vocab := by
  simp only [load_fields] at h
  split at h
  case _ tgtF perF htgt hper =>
    obtain rfl := Option.some.inj h
    refine ⟨{ perF with vocab := tgtF.vocab }, tgtF, ?_, ?_, rfl⟩
    · simp
    · show (if ("tgt" : String) = "per"
            then some { perF with vocab := tgtF.vocab }
            else if keys.contains "tgt" = true then base "tgt" else none)
          = some tgtF
      rw [if_neg (by decide)]
      exact htgt
  case _ => exact absurd h (by simp)

/-- Witness for C4 at a concrete field dict with distinct vocabularies. -/
theorem C4_per_vocab_is_tgt_vocab_witness :
    load_fields baseFieldsW ["src", "tgt", "per"] = some loadFieldsResultW ∧
    (∃ perF tgtF, loadFieldsResultW "per" = some perF ∧
      loadFieldsResultW "tgt" = some tgtF ∧ perF.vocab = tgtF.vocab) :=
  ⟨rfl, C4_per_vocab_is_tgt_vocab baseFieldsW ["src", "tgt", "per"]
    loadFieldsResultW rfl⟩

/-- C8: the SRU-requires-accelerator assertion and the multiple-accelerator
rejection both happen at module level, before `main` reads any dataset file:
an SRU configuration with no device aborts with only the assertion event in
the trace; more than one device aborts before any read; and any dataset-read
event can only appear after both checks have run and passed. -/
theorem C8_startup_checks_before_data (o : StartupOpts) (p : String) :
    (o.rnn_type = "SRU" → o.gpuid = [] →
      startupTrace o p = [.sruAssertionError]) ∧
    (1 < o.gpuid.length →
      startupTrace o p = [.sruCheckPassed, .multiGpuExit]) ∧
    (∀ q, StartupEvent.datasetRead q ∈ startupTrace o p →
      startupTrace o p
        = [.sruCheckPassed, .multiGpuCheckPassed, .datasetRead q]) := by
  refine ⟨?_, ?_, ?_⟩
  · intro h1 h2
    simp [startupTrace, h1, h2]
  · intro hlen
    have hne : o.gpuid ≠ [] := by
      intro h
      rw [h] at hlen
      simp at hlen
    rw [startupTrace, if_neg (fun hand => hne hand.2), if_pos hlen]
  · intro q hq
    by_cases h1 : o.rnn_type = "SRU" ∧ o.gpuid = []
    · rw [startupTrace, if_pos h1] at hq
      simp at hq
    · by_cases h2 : 1 < o.gpuid.length
      · rw [startupTrace, if_neg h1, if_pos h2] at hq
        simp at hq
      · rw [startupTrace, if_neg h1, if_neg h2] at hq
        rw [startupTrace, if_neg h1, if_neg h2]
        simp at hq
        rw [hq]

/-- Witness for C8: an SRU run with no device, and an LSTM run with two
devices. -/
theorem C8_startup_checks_before_data_witness :
    startupTrace ⟨"SRU", []⟩ "data.train.pt" = [.sruAssertionError] ∧
    startupTrace ⟨"LSTM", [0, 1]⟩ "data.train.pt"
      = [.sruCheckPassed, .multiGpuExit] :=
  ⟨(C8_startup_checks_before_data ⟨"SRU", []⟩ "data.train.pt").1 rfl rfl,
    (C8_startup_checks_before_data ⟨"LSTM", [0, 1]⟩ "data.train.pt").2.1 (by decide)⟩

/-- C9: in every epoch of `train_model`, training precedes validation,
validation precedes the learning-rate update (which receives that epoch's
validation perplexity), the rate update precedes the checkpoint write when
one happens, and a checkpoint is written iff
`epoch >= opt.start_checkpoint_at`. -/
theorem C9_epoch_phase_order (exp_host : String) (start_checkpoint_at : Nat)
    (validPpl : Nat → Nat) (epoch : Nat) :
    occursBefore (epochPhases exp_host start_checkpoint_at validPpl epoch)
        (.trainEpoch epoch) (.validateEpoch epoch) ∧
    occursBefore (epochPhases exp_host start_checkpoint_at validPpl epoch)
        (.validateEpoch epoch) (.rateUpdate (validPpl epoch) epoch) ∧
    (start_checkpoint_at ≤ epoch →
      occursBefore (epochPhases exp_host start_checkpoint_at validPpl epoch)
        (.rateUpdate (validPpl epoch) epoch)
        (.writeCheckpoint epoch (validPpl epoch))) ∧
    (TrainPhase.writeCheckpoint epoch (validPpl epoch)
        ∈ epochPhases exp_host start_checkpoint_at validPpl epoch
      ↔ start_checkpoint_at ≤ epoch) := by
  by_cases hexp : exp_host = ""
  · by_cases hsca : start_checkpoint_at ≤ epoch
    · have hl : epochPhases exp_host start_checkpoint_at validPpl epoch
          = [.trainEpoch epoch, .validateEpoch epoch,
             .rateUpdate (validPpl epoch) epoch,
             .writeCheckpoint epoch (validPpl epoch)] := by
        simp [epochPhases, hexp, hsca]
      rw [hl]
      exact ⟨⟨0, 1, by omega, rfl, rfl⟩, ⟨1, 2, by omega, rfl, rfl⟩,
        fun _ => ⟨2, 3, by omega, rfl, rfl⟩, by simp [hsca]⟩
    · have hl : epochPhases exp_host start_checkpoint_at validPpl epoch
          = [.trainEpoch epoch, .validateEpoch epoch,
             .rateUpdate (validPpl epoch) epoch] := by
        simp [epochPhases, hexp, hsca]
      rw [hl]
      exact ⟨⟨0, 1, by omega, rfl, rfl⟩, ⟨1, 2, by omega, rfl, rfl⟩,
        fun h => absurd h hsca, by simp [hsca]⟩
  · by_cases hsca : start_checkpoint_at ≤ epoch
    · have hl : epochPhases exp_host start_checkpoint_at validPpl epoch
          = [.trainEpoch epoch, .validateEpoch epoch, .logRemote epoch,
             .rateUpdate (validPpl epoch) epoch,
             .writeCheckpoint epoch (validPpl epoch)] := by
        simp [epochPhases, hexp, hsca]
      rw [hl]
      exact ⟨⟨0, 1, by omega, rfl, rfl⟩, ⟨1, 3, by omega, rfl, rfl⟩,
        fun _ => ⟨3, 4, by omega, rfl, rfl⟩, by simp [hsca]⟩
    · have hl : epochPhases exp_host start_checkpoint_at validPpl epoch
          = [.trainEpoch epoch, .validateEpoch epoch, .logRemote epoch,
             .rateUpdate (validPpl epoch) epoch] := by
        simp [epochPhases, hexp, hsca]
      rw [hl]
      exact ⟨⟨0, 1, by omega, rfl, rfl⟩, ⟨1, 3, by omega, rfl, rfl⟩,
        fun h => absurd h hsca, by simp [hsca]⟩

/-- Witness for C9: checkpointing enabled from epoch 0, remote host set,
epoch 3. -/
theorem C9_epoch_phase_order_witness :
    (0 : Nat) ≤ 3 ∧
    occursBefore (epochPhases "crayon" 0 (fun _ => 7) 3)
      (.rateUpdate 7 3) (.writeCheckpoint 3 7) ∧
    (TrainPhase.writeCheckpoint 3 7 ∈ epochPhases "crayon" 0 (fun _ => 7) 3) :=
  ⟨by decide,
    (C9_epoch_phase_order "crayon" 0 (fun _ => 7) 3).2.2.1 (by decide),
    ((C9_epoch_phase_order "crayon" 0 (fun _ => 7) 3).2.2.2).mpr (by decide)⟩

end CE
